import Mathlib

/-!
Shallow embedding of `src/pricers/montecarlo.rs` from the QuantMath
repository: the `MonteCarloPricer`, its `Pricer`, `Bumpable` and
`TimeBumpable` implementations, and the `MonteCarloPricerFactory`
construction routine (`PricerFactory::new`).

External collaborators (instruments, models, timelines, dependency
collectors, the pricing-context prefetch cache, bumps) live outside the
repository slice under verification; they are represented abstractly,
faithful to the interfaces the pricer code consumes.  `f64` amounts are
modelled as exact rationals `ℚ`: the claims under study are structural
(accumulation order, delegation, error propagation), not about rounding.
Mutation (`&mut self`) is modelled by explicit state passing: a Rust
method that mutates its receiver becomes a Lean function returning the
updated value.
-/

namespace QuantMath

/-- Embedding of `qm::Error`: a human-readable message carried by every
fallible entry point. -/
structure Error : Type where
  message : String
deriving DecidableEq, Repr

/-- Embedding of `qm::Error::new`. -/
def Error.new (msg : String) : Error := ⟨msg⟩

/-- Embedding of `Result<α, qm::Error>`. -/
abbrev QmResult (α : Type) : Type := Except Error α

/-- Modelled from the spec: the market-data snapshot is external to the
file under verification; the pricer code only calls `spot_date()` on it
(spec §6: "Market data snapshot: exposes `spot_date() -> date`").
`D` is the abstract date type. -/
structure MarketData (D : Type) : Type where
  spot_date : D

/-- Modelled from the spec: the Monte-Carlo-priceable capability of an
instrument (spec §6: "optionally a Monte-Carlo-priceable capability
exposing `mc_dependencies(dates, timeline)` and
`mc_price(context) -> real number`").  `mc_dependencies` mutates the
timeline (state `T`), modelled by returning the updated timeline;
`mc_price` values the instrument on a per-path context `X`. -/
structure McPriceable (D X T : Type) : Type where
  mc_dependencies : List D → T → QmResult T
  mc_price : X → QmResult ℚ

/-- Modelled from the spec: the external `Instrument` interface (spec §6:
"Instrument: exposes `fix(fixing_table) -> Option<weighted instrument
list>`, `id() -> string`, and optionally a Monte-Carlo-priceable
capability").  `F` is the abstract fixing-table type. -/
inductive Instrument (D F X T : Type) : Type where
  | mk (id : String)
       (fix : F → Except Error (Option (List (ℚ × Instrument D F X T))))
       (as_mc_priceable : Option (McPriceable D X T))

/-- Embedding of `Instrument::id`. -/
def Instrument.id {D F X T : Type} : Instrument D F X T → String
  | .mk i _ _ => i

/-- Embedding of `Instrument::fix`. -/
def Instrument.fix {D F X T : Type} :
    Instrument D F X T → F → QmResult (Option (List (ℚ × Instrument D F X T)))
  | .mk _ f _ => f

/-- Embedding of `Instrument::as_mc_priceable`. -/
def Instrument.as_mc_priceable {D F X T : Type} :
    Instrument D F X T → Option (McPriceable D X T)
  | .mk _ _ m => m

/-- Modelled from the spec: the external `MonteCarloModel` capability
(spec §2: the Model "owns the simulated paths and the machinery to (a)
expose a per-path valuation context, (b) apply a bump to one market input
and report whether it affected this model, (c) snapshot/restore its
internal state").  The model's mutable internal state has abstract type
`M`; each mutating method returns the updated state.  `B` is the abstract
`Bump` type, `S` the opaque `Saveable` snapshot, `C` the dependency
collector, `P` the read-only `PricingContext`. -/
structure MonteCarloModel (B X C S M P : Type) : Type where
  state : M
  as_mc_context : M → X
  bump : B → M → S → QmResult (Bool × M × S)
  restore : S → M → QmResult M
  new_saveable : M → S
  dependencies : M → QmResult C
  context : M → P

/-- Modelled from the spec: the pluggable model factory (spec §4.1 step 6:
"Invoke the pluggable model constructor with (timeline, context) to obtain
a ready Model"); embeds `MonteCarloModelFactory::factory`. -/
structure MonteCarloModelFactory (B X T C S M P : Type) : Type where
  factory : T → P → QmResult (MonteCarloModel B X C S M P)

/-- Modelled from the spec: the external free functions the construction
routine calls — `DependencyCollector::new` / `::spot`,
`MonteCarloTimeline::new` / `::collate`, and
`PricingContextPrefetch::new` (spec §2, §4.1).  In Rust these are
concrete functions of other modules; here they are parameters bundled in
one record. -/
structure Externals (D F X T C P : Type) : Type where
  dependency_collector_new : D → C
  dependency_collector_spot : C → Instrument D F X T → C
  timeline_new : D → T
  timeline_collate : T → QmResult T
  pricing_context_prefetch_new : MarketData D → C → QmResult P

/-- Embedding of `MonteCarloPricerFactory`: holds the pluggable model
factory. -/
structure MonteCarloPricerFactory (B X T C S M P : Type) : Type where
  model_factory : MonteCarloModelFactory B X T C S M P

/-- Embedding of `MonteCarloPricer`: a weighted instrument list sharing
one model. -/
structure MonteCarloPricer (D F X T B C S M P : Type) : Type where
  instruments : List (ℚ × Instrument D F X T)
  model : MonteCarloModel B X C S M P

section Operations

variable {D F X T B C S M P : Type}

/-- Embedding of the dependency/validation loop of
`PricerFactory::new for MonteCarloPricerFactory` (montecarlo.rs lines
70–78): for each weighted instrument, contribute its spot dependency,
then require Monte-Carlo priceability, threading the dependency collector
and the timeline.  An instrument without the capability aborts the loop
with the instrument-identified error of the source. -/
def mc_dependencies_loop (spot : C → Instrument D F X T → C)
    (dates_to_value : List D) :
    List (ℚ × Instrument D F X T) → C → T → QmResult (C × T)
  | [], deps, timeline => .ok (deps, timeline)
  | (_, instr) :: rest, deps, timeline =>
    let deps := spot deps instr
    match instr.as_mc_priceable with
    | some mc =>
      match mc.mc_dependencies dates_to_value timeline with
      | .ok timeline => mc_dependencies_loop spot dates_to_value rest deps timeline
      | .error e => .error e
    | none =>
      .error (Error.new ("Instrument " ++ instr.id ++
        " is not priceable by MonteCarlo"))

/-- Embedding of the fixing-resolution match of `PricerFactory::new`
(montecarlo.rs lines 57–60): a successful `fix` that decomposes yields
the decomposition; one that does not yields the single original
instrument at weight 1.0. -/
def resolved_instruments (instrument : Instrument D F X T)
    (fixed : Option (List (ℚ × Instrument D F X T))) :
    List (ℚ × Instrument D F X T) :=
  match fixed with
  | some f => f
  | none => [((1 : ℚ), instrument)]

/-- Embedding of `PricerFactory::new for MonteCarloPricerFactory`
(montecarlo.rs lines 52–91): apply fixings (an instrument that does not
decompose becomes the single entry at weight 1.0), collect dependencies
and validate Monte-Carlo priceability, collate the timeline, build the
prefetched pricing context, invoke the model factory, and return the
pricer.  Every fallible step short-circuits with its error, as the `?`
operator does in the source. -/
def MonteCarloPricerFactory.new
    (self : MonteCarloPricerFactory B X T C S M P)
    (ext : Externals D F X T C P)
    (instrument : Instrument D F X T) (fixing_table : F)
    (market_data : MarketData D) :
    QmResult (MonteCarloPricer D F X T B C S M P) :=
  match instrument.fix fixing_table with
  | .error e => .error e
  | .ok fixed =>
    let instruments := resolved_instruments instrument fixed
    let spot_date := market_data.spot_date
    let dates_to_value : List D := []
    match mc_dependencies_loop ext.dependency_collector_spot dates_to_value
        instruments (ext.dependency_collector_new spot_date)
        (ext.timeline_new spot_date) with
    | .error e => .error e
    | .ok (deps, timeline) =>
      match ext.timeline_collate timeline with
      | .error e => .error e
      | .ok timeline =>
        match ext.pricing_context_prefetch_new market_data deps with
        | .error e => .error e
        | .ok context =>
          match self.model_factory.factory timeline context with
          | .error e => .error e
          | .ok model => .ok { instruments := instruments, model := model }

/-- Embedding of the accumulation loop of `MonteCarloPricer::price`
(montecarlo.rs lines 103–109): each Monte-Carlo-priceable instrument
contributes `weight * mc_price(context)` to the running total; an
instrument without the capability is skipped; an `mc_price` error
short-circuits. -/
def price_loop (model : MonteCarloModel B X C S M P) :
    List (ℚ × Instrument D F X T) → ℚ → QmResult ℚ
  | [], total => .ok total
  | (weight, instrument) :: rest, total =>
    match instrument.as_mc_priceable with
    | some mc =>
      match mc.mc_price (model.as_mc_context model.state) with
      | .ok v => price_loop model rest (total + weight * v)
      | .error e => .error e
    | none => price_loop model rest total

/-- Embedding of `MonteCarloPricer::price` (montecarlo.rs lines 98–115):
the weighted sum of the individual Monte-Carlo prices, starting from
`0.0`. -/
def MonteCarloPricer.price (self : MonteCarloPricer D F X T B C S M P) :
    QmResult ℚ :=
  price_loop self.model self.instruments 0

/-- Embedding of `Bumpable::bump for MonteCarloPricer` (montecarlo.rs
lines 119–122): delegate to the model with the same arguments, returning
its result unchanged; the model's state and the saveable are updated in
place in Rust, modelled here by returning them. -/
def MonteCarloPricer.bump (self : MonteCarloPricer D F X T B C S M P)
    (b : B) (save : S) :
    QmResult (Bool × MonteCarloPricer D F X T B C S M P × S) :=
  match self.model.bump b self.model.state save with
  | .ok (bumped, m, save) =>
    .ok (bumped, { self with model := { self.model with state := m } }, save)
  | .error e => .error e

/-- Embedding of `Bumpable::restore for MonteCarloPricer` (montecarlo.rs
lines 136–138): delegate to the model's restore. -/
def MonteCarloPricer.restore (self : MonteCarloPricer D F X T B C S M P)
    (saved : S) : QmResult (MonteCarloPricer D F X T B C S M P) :=
  match self.model.restore saved self.model.state with
  | .ok m => .ok { self with model := { self.model with state := m } }
  | .error e => .error e

/-- Embedding of `Bumpable::dependencies for MonteCarloPricer`. -/
def MonteCarloPricer.dependencies
    (self : MonteCarloPricer D F X T B C S M P) : QmResult C :=
  self.model.dependencies self.model.state

/-- Embedding of `Bumpable::context for MonteCarloPricer`. -/
def MonteCarloPricer.context (self : MonteCarloPricer D F X T B C S M P) : P :=
  self.model.context self.model.state

/-- Embedding of `Bumpable::new_saveable for MonteCarloPricer`. -/
def MonteCarloPricer.new_saveable
    (self : MonteCarloPricer D F X T B C S M P) : S :=
  self.model.new_saveable self.model.state

end Operations

/-- Modelled from the spec: the external `BumpTime` instruction (spec
§4.4, §6).  Its `apply` receives the pricer's weighted instrument list
and the model's bumpable interface and mutates both; modelled by
returning the updated pair. -/
structure BumpTime (D F X T M : Type) : Type where
  apply : List (ℚ × Instrument D F X T) → M →
    QmResult (List (ℚ × Instrument D F X T) × M)

/-- Embedding of `TimeBumpable::bump_time for MonteCarloPricer`
(montecarlo.rs lines 142–144): `bump.apply(&mut self.instruments,
self.model.as_mut_bumpable())`. -/
def MonteCarloPricer.bump_time {D F X T B C S M P : Type}
    (self : MonteCarloPricer D F X T B C S M P)
    (bump : BumpTime D F X T M) :
    QmResult (MonteCarloPricer D F X T B C S M P) :=
  match bump.apply self.instruments self.model.state with
  | .ok (instruments, m) =>
    .ok { instruments := instruments,
          model := { self.model with state := m } }
  | .error e => .error e

/-!
Concrete instantiations of the abstract external types, used to witness
the theorems below on executable inputs.  Dates, timelines, dependency
collectors, saveables and model states are instantiated with `Nat`;
fixing tables, per-path contexts, bumps and pricing contexts with
`Unit`.
-/

/-- A Monte-Carlo capability that records no dates and always prices at
`5`. -/
def mcA : McPriceable Nat Unit Nat :=
  { mc_dependencies := fun _ t => .ok t, mc_price := fun _ => .ok 5 }

/-- A Monte-Carlo capability that always prices at `7`. -/
def mcB : McPriceable Nat Unit Nat :=
  { mc_dependencies := fun _ t => .ok t, mc_price := fun _ => .ok 7 }

/-- A Monte-Carlo capability whose dependency declaration fails. -/
def mcBoom : McPriceable Nat Unit Nat :=
  { mc_dependencies := fun _ _ => .error (Error.new "boom"),
    mc_price := fun _ => .ok 0 }

/-- An instrument with Monte-Carlo capability `mcA`; it does not
decompose under fixings. -/
def instrA : Instrument Nat Unit Unit Nat := .mk "A" (fun _ => .ok none) (some mcA)

/-- An instrument with Monte-Carlo capability `mcB`. -/
def instrB : Instrument Nat Unit Unit Nat := .mk "C" (fun _ => .ok none) (some mcB)

/-- An instrument without Monte-Carlo capability. -/
def instrBad : Instrument Nat Unit Unit Nat := .mk "B" (fun _ => .ok none) none

/-- An instrument whose Monte-Carlo dependency declaration errors. -/
def instrBoom : Instrument Nat Unit Unit Nat := .mk "E" (fun _ => .ok none) (some mcBoom)

/-- An instrument that decomposes under fixings into `instrBoom` followed
by the Monte-Carlo-incapable `instrBad`. -/
def instrRootBoom : Instrument Nat Unit Unit Nat :=
  .mk "rootBoom" (fun _ => .ok (some [(1, instrBoom), (1, instrBad)])) none

/-- An instrument that decomposes under fixings into `instrA` followed by
the Monte-Carlo-incapable `instrBad`. -/
def instrRootBad : Instrument Nat Unit Unit Nat :=
  .mk "rootBad" (fun _ => .ok (some [(1, instrA), (1, instrBad)])) none

/-- A concrete model: the state counts bumps, `restore` rewinds to `0`,
the saveable counts saved bumps. -/
def modelW : MonteCarloModel Unit Unit Nat Nat Nat Unit :=
  { state := 0
    as_mc_context := fun _ => ()
    bump := fun _ m s => .ok (true, m + 1, s + 1)
    restore := fun _ _ => .ok 0
    new_saveable := fun _ => 0
    dependencies := fun m => .ok m
    context := fun _ => () }

/-- A model factory that always returns `modelW`. -/
def model_factoryW : MonteCarloModelFactory Unit Unit Nat Nat Nat Nat Unit :=
  { factory := fun _ _ => .ok modelW }

/-- A pricer factory wrapping `model_factoryW`. -/
def pricer_factoryW : MonteCarloPricerFactory Unit Unit Nat Nat Nat Nat Unit :=
  { model_factory := model_factoryW }

/-- Concrete external collaborators: dependency collectors and timelines
are bare naturals, collation and prefetching always succeed. -/
def extW : Externals Nat Unit Unit Nat Nat Unit :=
  { dependency_collector_new := fun d => d
    dependency_collector_spot := fun c _ => c
    timeline_new := fun d => d
    timeline_collate := fun t => .ok t
    pricing_context_prefetch_new := fun _ _ => .ok () }

/-- A concrete market-data snapshot with spot date `0`. -/
def mdW : MarketData Nat := ⟨0⟩

/-- A concrete pricer over `instrA` and `instrB`. -/
def pricerW : MonteCarloPricer Nat Unit Unit Nat Unit Nat Nat Nat Unit :=
  { instruments := [(2, instrA), (3, instrB)], model := modelW }

/-- A concrete pricer whose list also holds the Monte-Carlo-incapable
`instrBad`. -/
def pricerWithBad : MonteCarloPricer Nat Unit Unit Nat Unit Nat Nat Nat Unit :=
  { instruments := [(2, instrA), (4, instrBad), (3, instrB)], model := modelW }

/-- A concrete pricer with an empty weighted instrument list. -/
def pricerEmpty : MonteCarloPricer Nat Unit Unit Nat Unit Nat Nat Nat Unit :=
  { instruments := [], model := modelW }

section Lemmas

variable {D F X T B C S M P : Type}

/-- If every entry of the list is Monte-Carlo priceable and its
`mc_price` on the model's context succeeds with value `f x`, the pricing
loop folds the weighted values onto the accumulator in list order. -/
theorem price_loop_sum (model : MonteCarloModel B X C S M P)
    (f : ℚ × Instrument D F X T → ℚ) :
    ∀ (l : List (ℚ × Instrument D F X T)) (acc : ℚ),
      (∀ x ∈ l, ∃ mc, x.2.as_mc_priceable = some mc ∧
        mc.mc_price (model.as_mc_context model.state) = Except.ok (f x)) →
      price_loop model l acc =
        Except.ok (l.foldl (fun t x => t + x.1 * f x) acc) := by
  intro l
  induction l with
  | nil => intro acc _; simp [price_loop]
  | cons hd rest ih =>
    intro acc h
    obtain ⟨w, i⟩ := hd
    obtain ⟨mc, hmc, hv⟩ := h (w, i) (List.mem_cons_self _ _)
    simp only [price_loop, hmc, hv, List.foldl_cons]
    exact ih _ (fun x hx => h x (List.mem_cons_of_mem _ hx))

/-- An entry without Monte-Carlo capability can be removed from the list
without changing the pricing loop's result. -/
theorem price_loop_skip (model : MonteCarloModel B X C S M P)
    (w : ℚ) (i : Instrument D F X T)
    (hnone : i.as_mc_priceable = none) :
    ∀ (pre post : List (ℚ × Instrument D F X T)) (acc : ℚ),
      price_loop model (pre ++ (w, i) :: post) acc =
        price_loop model (pre ++ post) acc := by
  intro pre
  induction pre with
  | nil => intro post acc; simp [price_loop, hnone]
  | cons hd tail ih =>
    intro post acc
    obtain ⟨w2, j⟩ := hd
    cases hj : j.as_mc_priceable with
    | none =>
      simp only [List.cons_append, price_loop, hj]
      exact ih post acc
    | some mc =>
      cases hv : mc.mc_price (model.as_mc_context model.state) with
      | error e => simp only [List.cons_append, price_loop, hj, hv]
      | ok v =>
        simp only [List.cons_append, price_loop, hj, hv]
        exact ih post _

end Lemmas

section PricingClaims

variable {D F X T B C S M P : Type}

/-- C2: for a pricer whose instruments are all Monte-Carlo priceable and
all succeed in `mc_price` on the model's current per-path valuation
context, `price` returns the sum over all (weight, instrument) pairs of
weight times the instrument's Monte-Carlo price, accumulated in list
order (a left fold starting at 0). -/
theorem price_is_weighted_sum (p : MonteCarloPricer D F X T B C S M P)
    (f : ℚ × Instrument D F X T → ℚ)
    (h : ∀ x ∈ p.instruments, ∃ mc, x.2.as_mc_priceable = some mc ∧
      mc.mc_price (p.model.as_mc_context p.model.state) = Except.ok (f x)) :
    p.price = Except.ok (p.instruments.foldl (fun t x => t + x.1 * f x) 0) :=
  price_loop_sum p.model f p.instruments 0 h

/-- Witness for C2 on the concrete pricer `pricerW`:
`2 * 5 + 3 * 7 = 31`. -/
theorem price_is_weighted_sum_witness :
    MonteCarloPricer.price pricerW = Except.ok 31 := by
  have h := price_is_weighted_sum pricerW
    (fun x => if x.2.id = "A" then 5 else 7) ?_
  · rw [h]
    simp only [pricerW, instrA, instrB, Instrument.id, List.foldl]
    norm_num
    rw [if_neg (by decide)]
    norm_num
  · intro x hx
    rcases List.mem_cons.mp hx with rfl | hx2
    · exact ⟨mcA, rfl, rfl⟩
    · rcases List.mem_cons.mp hx2 with rfl | hx3
      · exact ⟨mcB, rfl, rfl⟩
      · exact absurd hx3 (List.not_mem_nil _)

/-- C5: inside `price`, an instrument in the weighted list that lacks
Monte-Carlo capability is silently skipped: it contributes nothing to
the total and raises no error, so the price equals that of the same
pricer with the entry removed. -/
theorem price_skips_non_mc_priceable
    (p q : MonteCarloPricer D F X T B C S M P)
    (w : ℚ) (i : Instrument D F X T)
    (pre post : List (ℚ × Instrument D F X T))
    (hnone : i.as_mc_priceable = none)
    (hp : p.instruments = pre ++ (w, i) :: post)
    (hq : q.instruments = pre ++ post)
    (hm : p.model = q.model) :
    p.price = q.price := by
  unfold MonteCarloPricer.price
  rw [hp, hq, hm]
  exact price_loop_skip q.model w i hnone pre post 0

/-- Witness for C5: `pricerWithBad` holds the Monte-Carlo-incapable
`instrBad` at weight 4 between the entries of `pricerW`, and both price
to the same result. -/
theorem price_skips_non_mc_priceable_witness :
    MonteCarloPricer.price pricerWithBad = MonteCarloPricer.price pricerW :=
  price_skips_non_mc_priceable pricerWithBad pricerW 4 instrBad
    [(2, instrA)] [(3, instrB)] rfl rfl rfl rfl

/-- C8: `price` is deterministic and non-mutating: it is a pure function
of the pricer's state (weighted instrument list and model), so two calls
with equal state — in particular two calls on the same pricer with no
intervening mutation — return identical results; in the embedding
`price` does not return an updated pricer, mirroring `&self` in the
source. -/
theorem price_deterministic_non_mutating
    (p q : MonteCarloPricer D F X T B C S M P)
    (hi : p.instruments = q.instruments) (hm : p.model = q.model) :
    p.price = q.price := by
  unfold MonteCarloPricer.price
  rw [hi, hm]

/-- Witness for C8 at the concrete pricer `pricerW`. -/
theorem price_deterministic_non_mutating_witness :
    MonteCarloPricer.price pricerW = MonteCarloPricer.price pricerW :=
  price_deterministic_non_mutating pricerW pricerW rfl rfl

/-- C10: a pricer with an empty weighted instrument list prices to
`Ok 0`: the accumulator starts at 0 and no error path is taken. -/
theorem price_empty_list_zero (p : MonteCarloPricer D F X T B C S M P)
    (h : p.instruments = []) : p.price = Except.ok 0 := by
  unfold MonteCarloPricer.price
  rw [h]
  rfl

/-- Witness for C10 at the concrete pricer `pricerEmpty`. -/
theorem price_empty_list_zero_witness :
    pricerEmpty.instruments = [] ∧
      MonteCarloPricer.price pricerEmpty = Except.ok 0 :=
  ⟨rfl, price_empty_list_zero pricerEmpty rfl⟩

end PricingClaims

section ConstructionLemmas

variable {D F X T B C S M P : Type}

/-- If some entry of the list lacks Monte-Carlo capability, the
dependency/validation loop fails, whatever the collector and timeline
states. -/
theorem mc_dependencies_loop_offender (spot : C → Instrument D F X T → C)
    (dtv : List D) :
    ∀ (l : List (ℚ × Instrument D F X T)),
      (∃ x ∈ l, x.2.as_mc_priceable = none) →
      ∀ (dc : C) (tl : T),
        ∃ e, mc_dependencies_loop spot dtv l dc tl = Except.error e := by
  intro l
  induction l with
  | nil =>
    intro h
    rcases h with ⟨x, hx, _⟩
    exact absurd hx (List.not_mem_nil x)
  | cons hd rest ih =>
    intro h dc tl
    obtain ⟨w, i⟩ := hd
    cases hmc : i.as_mc_priceable with
    | none =>
      refine ⟨Error.new ("Instrument " ++ i.id ++
        " is not priceable by MonteCarlo"), ?_⟩
      simp [mc_dependencies_loop, hmc]
    | some mc =>
      have hrest : ∃ x ∈ rest, x.2.as_mc_priceable = none := by
        rcases h with ⟨x, hx, hxnone⟩
        rcases List.mem_cons.mp hx with rfl | hxr
        · simp [hmc] at hxnone
        · exact ⟨x, hxr, hxnone⟩
      cases hdep : mc.mc_dependencies dtv tl with
      | error e => exact ⟨e, by simp [mc_dependencies_loop, hmc, hdep]⟩
      | ok tl2 =>
        obtain ⟨e, he⟩ := ih hrest (spot dc i) tl2
        exact ⟨e, by simp [mc_dependencies_loop, hmc, hdep, he]⟩

/-- If every instrument before the first offender is Monte-Carlo
priceable and declares its dependencies successfully from any timeline
state, the loop fails with precisely the source's instrument-identified
error for that offender. -/
theorem mc_dependencies_loop_first_offender
    (spot : C → Instrument D F X T → C) (dtv : List D) :
    ∀ (pre : List (ℚ × Instrument D F X T)) (w : ℚ)
      (off : Instrument D F X T) (rest : List (ℚ × Instrument D F X T))
      (dc : C) (tl : T),
      (∀ x ∈ pre, ∃ mc, x.2.as_mc_priceable = some mc ∧
        ∀ t, ∃ t2, mc.mc_dependencies dtv t = Except.ok t2) →
      off.as_mc_priceable = none →
      mc_dependencies_loop spot dtv (pre ++ (w, off) :: rest) dc tl =
        Except.error (Error.new ("Instrument " ++ off.id ++
          " is not priceable by MonteCarlo")) := by
  intro pre
  induction pre with
  | nil =>
    intro w off rest dc tl _ hoff
    simp [mc_dependencies_loop, hoff]
  | cons hd tail ih =>
    intro w off rest dc tl hpre hoff
    obtain ⟨w2, i⟩ := hd
    obtain ⟨mc, hmc, hsucc⟩ := hpre (w2, i) (List.mem_cons_self _ _)
    obtain ⟨t2, ht2⟩ := hsucc tl
    simp only [List.cons_append, mc_dependencies_loop, hmc, ht2]
    exact ih w off rest (spot dc i) t2
      (fun x hx => hpre x (List.mem_cons_of_mem _ hx)) hoff

/-- If fixing resolution itself fails, construction propagates that
error. -/
theorem new_fix_error (self : MonteCarloPricerFactory B X T C S M P)
    (ext : Externals D F X T C P) (instrument : Instrument D F X T)
    (ft : F) (md : MarketData D) (e : Error)
    (hfix : instrument.fix ft = Except.error e) :
    MonteCarloPricerFactory.new self ext instrument ft md =
      Except.error e := by
  simp [MonteCarloPricerFactory.new, hfix]

/-- If the dependency/validation loop fails, construction propagates
that error. -/
theorem new_loop_error (self : MonteCarloPricerFactory B X T C S M P)
    (ext : Externals D F X T C P) (instrument : Instrument D F X T)
    (ft : F) (md : MarketData D)
    (fixed : Option (List (ℚ × Instrument D F X T)))
    (instruments : List (ℚ × Instrument D F X T)) (e : Error)
    (hfix : instrument.fix ft = Except.ok fixed)
    (hres : resolved_instruments instrument fixed = instruments)
    (hloop : mc_dependencies_loop ext.dependency_collector_spot []
      instruments (ext.dependency_collector_new md.spot_date)
      (ext.timeline_new md.spot_date) = Except.error e) :
    MonteCarloPricerFactory.new self ext instrument ft md =
      Except.error e := by
  simp [MonteCarloPricerFactory.new, hfix, hres, hloop]

/-- If collation fails, construction propagates that error. -/
theorem new_collate_error (self : MonteCarloPricerFactory B X T C S M P)
    (ext : Externals D F X T C P) (instrument : Instrument D F X T)
    (ft : F) (md : MarketData D)
    (fixed : Option (List (ℚ × Instrument D F X T)))
    (instruments : List (ℚ × Instrument D F X T)) (dc : C) (tl : T)
    (e : Error)
    (hfix : instrument.fix ft = Except.ok fixed)
    (hres : resolved_instruments instrument fixed = instruments)
    (hloop : mc_dependencies_loop ext.dependency_collector_spot []
      instruments (ext.dependency_collector_new md.spot_date)
      (ext.timeline_new md.spot_date) = Except.ok (dc, tl))
    (hcol : ext.timeline_collate tl = Except.error e) :
    MonteCarloPricerFactory.new self ext instrument ft md =
      Except.error e := by
  simp [MonteCarloPricerFactory.new, hfix, hres, hloop, hcol]

/-- If the pricing-context prefetch fails, construction propagates that
error. -/
theorem new_prefetch_error (self : MonteCarloPricerFactory B X T C S M P)
    (ext : Externals D F X T C P) (instrument : Instrument D F X T)
    (ft : F) (md : MarketData D)
    (fixed : Option (List (ℚ × Instrument D F X T)))
    (instruments : List (ℚ × Instrument D F X T)) (dc : C) (tl tlc : T)
    (e : Error)
    (hfix : instrument.fix ft = Except.ok fixed)
    (hres : resolved_instruments instrument fixed = instruments)
    (hloop : mc_dependencies_loop ext.dependency_collector_spot []
      instruments (ext.dependency_collector_new md.spot_date)
      (ext.timeline_new md.spot_date) = Except.ok (dc, tl))
    (hcol : ext.timeline_collate tl = Except.ok tlc)
    (hpre : ext.pricing_context_prefetch_new md dc = Except.error e) :
    MonteCarloPricerFactory.new self ext instrument ft md =
      Except.error e := by
  simp [MonteCarloPricerFactory.new, hfix, hres, hloop, hcol, hpre]

/-- If the pluggable model factory fails, construction propagates that
error. -/
theorem new_factory_error (self : MonteCarloPricerFactory B X T C S M P)
    (ext : Externals D F X T C P) (instrument : Instrument D F X T)
    (ft : F) (md : MarketData D)
    (fixed : Option (List (ℚ × Instrument D F X T)))
    (instruments : List (ℚ × Instrument D F X T)) (dc : C) (tl tlc : T)
    (ctx : P) (e : Error)
    (hfix : instrument.fix ft = Except.ok fixed)
    (hres : resolved_instruments instrument fixed = instruments)
    (hloop : mc_dependencies_loop ext.dependency_collector_spot []
      instruments (ext.dependency_collector_new md.spot_date)
      (ext.timeline_new md.spot_date) = Except.ok (dc, tl))
    (hcol : ext.timeline_collate tl = Except.ok tlc)
    (hpre : ext.pricing_context_prefetch_new md dc = Except.ok ctx)
    (hfac : self.model_factory.factory tlc ctx = Except.error e) :
    MonteCarloPricerFactory.new self ext instrument ft md =
      Except.error e := by
  simp [MonteCarloPricerFactory.new, hfix, hres, hloop, hcol, hpre, hfac]

/-- A successful construction carries exactly the resolved weighted
instrument list into the pricer. -/
theorem new_ok_instruments (self : MonteCarloPricerFactory B X T C S M P)
    (ext : Externals D F X T C P) (instrument : Instrument D F X T)
    (ft : F) (md : MarketData D)
    (fixed : Option (List (ℚ × Instrument D F X T)))
    (pricer : MonteCarloPricer D F X T B C S M P)
    (hfix : instrument.fix ft = Except.ok fixed)
    (hok : MonteCarloPricerFactory.new self ext instrument ft md =
      Except.ok pricer) :
    pricer.instruments = resolved_instruments instrument fixed := by
  unfold MonteCarloPricerFactory.new at hok
  rw [hfix] at hok
  simp only [] at hok
  split at hok
  · exact Except.noConfusion hok
  · split at hok
    · exact Except.noConfusion hok
    · split at hok
      · exact Except.noConfusion hok
      · split at hok
        · exact Except.noConfusion hok
        · injection hok with h
          subst h
          rfl

end ConstructionLemmas

section ConstructionClaims

variable {D F X T B C S M P : Type}

/-- C1 counterexample: the claim "if any instrument in the resolved list
lacks Monte-Carlo capability, construction returns an error whose
message identifies the offending instrument by its id" fails as stated:
`instrRootBoom` resolves to `[instrBoom, instrBad]` where `instrBad`
(id "B") lacks the capability, yet construction fails with the earlier
instrument's dependency error "boom", whose message neither equals the
id-bearing message nor even mentions the id "B". -/
theorem construction_error_not_instrument_identified :
    Instrument.fix instrRootBoom () =
      Except.ok (some [(1, instrBoom), (1, instrBad)]) ∧
    Instrument.as_mc_priceable instrBad = none ∧
    MonteCarloPricerFactory.new pricer_factoryW extW instrRootBoom () mdW =
      Except.error (Error.new "boom") ∧
    Error.new "boom" ≠ Error.new ("Instrument " ++ instrBad.id ++
      " is not priceable by MonteCarlo") ∧
    ("boom".toList.contains 'B') = false := by
  refine ⟨rfl, rfl, rfl, ?_, by decide⟩
  intro h
  exact absurd (congrArg Error.message h) (by decide)

/-- C1 (amended): if the resolved weighted instrument list contains an
instrument without Monte-Carlo capability, construction always fails and
no pricer is produced; moreover, when every instrument preceding the
first offender declares its dependencies successfully, the error is
exactly the source's instrument-identified message for that offender. -/
theorem construction_fails_on_non_mc_instrument
    (self : MonteCarloPricerFactory B X T C S M P)
    (ext : Externals D F X T C P) (instrument : Instrument D F X T)
    (ft : F) (md : MarketData D)
    (fixed : Option (List (ℚ × Instrument D F X T)))
    (instruments : List (ℚ × Instrument D F X T))
    (hfix : instrument.fix ft = Except.ok fixed)
    (hres : resolved_instruments instrument fixed = instruments)
    (w : ℚ) (off : Instrument D F X T)
    (pre rest : List (ℚ × Instrument D F X T))
    (hsplit : instruments = pre ++ (w, off) :: rest)
    (hoff : off.as_mc_priceable = none) :
    (∃ e, MonteCarloPricerFactory.new self ext instrument ft md =
      Except.error e) ∧
    ((∀ x ∈ pre, ∃ mc, x.2.as_mc_priceable = some mc ∧
        ∀ t, ∃ t2, mc.mc_dependencies [] t = Except.ok t2) →
      MonteCarloPricerFactory.new self ext instrument ft md =
        Except.error (Error.new ("Instrument " ++ off.id ++
          " is not priceable by MonteCarlo"))) := by
  constructor
  · have hmem : ((w, off) : ℚ × Instrument D F X T) ∈ instruments := by
      rw [hsplit]
      exact List.mem_append.mpr (Or.inr (List.mem_cons_self _ _))
    obtain ⟨e, he⟩ := mc_dependencies_loop_offender
      ext.dependency_collector_spot [] instruments ⟨(w, off), hmem, hoff⟩
      (ext.dependency_collector_new md.spot_date)
      (ext.timeline_new md.spot_date)
    exact ⟨e, new_loop_error self ext instrument ft md fixed instruments e
      hfix hres he⟩
  · intro hpre
    have hloop := mc_dependencies_loop_first_offender
      ext.dependency_collector_spot [] pre w off rest
      (ext.dependency_collector_new md.spot_date)
      (ext.timeline_new md.spot_date) hpre hoff
    rw [← hsplit] at hloop
    exact new_loop_error self ext instrument ft md fixed instruments _
      hfix hres hloop

/-- Witness for C1 (amended): `instrRootBad` resolves to
`[instrA, instrBad]`; `instrA` declares dependencies successfully, so
construction fails with the instrument-identified message for
`instrBad`. -/
theorem construction_fails_on_non_mc_instrument_witness :
    MonteCarloPricerFactory.new pricer_factoryW extW instrRootBad () mdW =
      Except.error
        (Error.new "Instrument B is not priceable by MonteCarlo") := by
  have h := (construction_fails_on_non_mc_instrument pricer_factoryW extW
    instrRootBad () mdW (some [(1, instrA), (1, instrBad)])
    [(1, instrA), (1, instrBad)] rfl rfl 1 instrBad [(1, instrA)] []
    rfl rfl).2 ?_
  · exact h
  · intro x hx
    rcases List.mem_cons.mp hx with rfl | hx2
    · exact ⟨mcA, rfl, fun t => ⟨t, rfl⟩⟩
    · exact absurd hx2 (List.not_mem_nil _)

/-- C4: in construction, when `fix` returns no decomposition the
resolved weighted instrument list placed in the pricer is exactly the
original instrument at weight 1.0; when `fix` returns a decomposition,
that list is used as-is. -/
theorem construction_fixing_resolution
    (self : MonteCarloPricerFactory B X T C S M P)
    (ext : Externals D F X T C P) (instrument : Instrument D F X T)
    (ft : F) (md : MarketData D)
    (pricer : MonteCarloPricer D F X T B C S M P) :
    (instrument.fix ft = Except.ok none →
      MonteCarloPricerFactory.new self ext instrument ft md =
        Except.ok pricer →
      pricer.instruments = [((1 : ℚ), instrument)]) ∧
    (∀ f, instrument.fix ft = Except.ok (some f) →
      MonteCarloPricerFactory.new self ext instrument ft md =
        Except.ok pricer →
      pricer.instruments = f) := by
  constructor
  · intro hfix hok
    exact new_ok_instruments self ext instrument ft md none pricer hfix hok
  · intro f hfix hok
    exact new_ok_instruments self ext instrument ft md (some f) pricer
      hfix hok

/-- Witness for C4: `instrA` does not decompose, and the constructed
pricer holds exactly `[(1, instrA)]`. -/
theorem construction_fixing_resolution_witness :
    MonteCarloPricerFactory.new pricer_factoryW extW instrA () mdW =
      Except.ok { instruments := [((1 : ℚ), instrA)], model := modelW } ∧
    MonteCarloPricer.instruments
      { instruments := [((1 : ℚ), instrA)], model := modelW } =
      [((1 : ℚ), instrA)] :=
  ⟨rfl, (construction_fixing_resolution pricer_factoryW extW instrA () mdW
    { instruments := [((1 : ℚ), instrA)], model := modelW }).1 rfl rfl⟩

/-- C7: construction is fail-fast and atomic.  Each failing step —
fixing, dependency collection/validation, collation, context prefetch,
model construction — short-circuits with its own error and no pricer is
produced (`Except.error` excludes `Except.ok`).  Collation runs strictly
before the context cache is built and before the model factory is
invoked: a collation error is returned unchanged for every choice of
prefetch function and every model factory. -/
theorem construction_fail_fast_atomic
    (ext : Externals D F X T C P) (instrument : Instrument D F X T)
    (ft : F) (md : MarketData D) :
    (∀ (self : MonteCarloPricerFactory B X T C S M P) (e : Error),
      instrument.fix ft = Except.error e →
      MonteCarloPricerFactory.new self ext instrument ft md =
        Except.error e) ∧
    (∀ (self : MonteCarloPricerFactory B X T C S M P) fixed instruments
      (e : Error),
      instrument.fix ft = Except.ok fixed →
      resolved_instruments instrument fixed = instruments →
      mc_dependencies_loop ext.dependency_collector_spot [] instruments
        (ext.dependency_collector_new md.spot_date)
        (ext.timeline_new md.spot_date) = Except.error e →
      MonteCarloPricerFactory.new self ext instrument ft md =
        Except.error e) ∧
    (∀ (self : MonteCarloPricerFactory B X T C S M P)
      (pf : MarketData D → C → QmResult P) fixed instruments dc tl
      (e : Error),
      instrument.fix ft = Except.ok fixed →
      resolved_instruments instrument fixed = instruments →
      mc_dependencies_loop ext.dependency_collector_spot [] instruments
        (ext.dependency_collector_new md.spot_date)
        (ext.timeline_new md.spot_date) = Except.ok (dc, tl) →
      ext.timeline_collate tl = Except.error e →
      MonteCarloPricerFactory.new self
        { ext with pricing_context_prefetch_new := pf } instrument ft md =
        Except.error e) ∧
    (∀ (self : MonteCarloPricerFactory B X T C S M P) fixed instruments
      dc tl tlc (e : Error),
      instrument.fix ft = Except.ok fixed →
      resolved_instruments instrument fixed = instruments →
      mc_dependencies_loop ext.dependency_collector_spot [] instruments
        (ext.dependency_collector_new md.spot_date)
        (ext.timeline_new md.spot_date) = Except.ok (dc, tl) →
      ext.timeline_collate tl = Except.ok tlc →
      ext.pricing_context_prefetch_new md dc = Except.error e →
      MonteCarloPricerFactory.new self ext instrument ft md =
        Except.error e) ∧
    (∀ (self : MonteCarloPricerFactory B X T C S M P) fixed instruments
      dc tl tlc ctx (e : Error),
      instrument.fix ft = Except.ok fixed →
      resolved_instruments instrument fixed = instruments →
      mc_dependencies_loop ext.dependency_collector_spot [] instruments
        (ext.dependency_collector_new md.spot_date)
        (ext.timeline_new md.spot_date) = Except.ok (dc, tl) →
      ext.timeline_collate tl = Except.ok tlc →
      ext.pricing_context_prefetch_new md dc = Except.ok ctx →
      self.model_factory.factory tlc ctx = Except.error e →
      MonteCarloPricerFactory.new self ext instrument ft md =
        Except.error e) := by
  refine ⟨?_, ?_, ?_, ?_, ?_⟩
  · intro self e hfix
    exact new_fix_error self ext instrument ft md e hfix
  · intro self fixed instruments e hfix hres hloop
    exact new_loop_error self ext instrument ft md fixed instruments e
      hfix hres hloop
  · intro self pf fixed instruments dc tl e hfix hres hloop hcol
    exact new_collate_error self
      { ext with pricing_context_prefetch_new := pf } instrument ft md
      fixed instruments dc tl e hfix hres hloop hcol
  · intro self fixed instruments dc tl tlc e hfix hres hloop hcol hpre
    exact new_prefetch_error self ext instrument ft md fixed instruments
      dc tl tlc e hfix hres hloop hcol hpre
  · intro self fixed instruments dc tl tlc ctx e hfix hres hloop hcol
      hpre hfac
    exact new_factory_error self ext instrument ft md fixed instruments
      dc tl tlc ctx e hfix hres hloop hcol hpre hfac

/-- Witness for C7, on the collation-failure clause: with a collation
that rejects the schedule, construction returns the collation error even
though the substituted prefetch function would itself fail with a
different error — the prefetch stage is never reached. -/
theorem construction_fail_fast_atomic_witness :
    MonteCarloPricerFactory.new pricer_factoryW
      { { extW with
            timeline_collate := fun _ =>
              Except.error (Error.new "bad schedule") } with
        pricing_context_prefetch_new := fun _ _ =>
          Except.error (Error.new "prefetch touched") }
      instrA () mdW = Except.error (Error.new "bad schedule") :=
  (construction_fail_fast_atomic
    { extW with
        timeline_collate := fun _ =>
          Except.error (Error.new "bad schedule") }
    instrA () mdW).2.2.1 pricer_factoryW
    (fun _ _ => Except.error (Error.new "prefetch touched"))
    none [((1 : ℚ), instrA)] 0 0 (Error.new "bad schedule")
    rfl rfl rfl rfl

end ConstructionClaims

section BumpClaims

variable {D F X T B C S M P : Type}

/-- C3: bump/restore exactness.  If `bump` succeeds and the model's
`restore` honours its contract — it reverts the model state to exactly
what it was before the bump — then `restore` on the pricer succeeds and
the subsequent `price()` equals the pre-bump `price()` exactly (in this
exact-arithmetic embedding, bit-for-bit equality, which entails the
spec's ~1e-12 tolerance). -/
theorem bump_restore_restores_price
    (p p1 : MonteCarloPricer D F X T B C S M P) (b : B) (save save1 : S)
    (affected : Bool)
    (hbump : p.bump b save = Except.ok (affected, p1, save1))
    (hrestore : p1.model.restore save1 p1.model.state =
      Except.ok p.model.state) :
    ∃ p2, p1.restore save1 = Except.ok p2 ∧ p2.price = p.price := by
  obtain ⟨pins, pm⟩ := p
  unfold MonteCarloPricer.bump at hbump
  cases hb : pm.bump b pm.state save with
  | error e =>
    rw [hb] at hbump
    exact Except.noConfusion hbump
  | ok r =>
    obtain ⟨aff, m, s⟩ := r
    rw [hb] at hbump
    injection hbump with h
    injection h with ha h
    injection h with hp hs
    subst hp
    subst hs
    unfold MonteCarloPricer.restore
    rw [hrestore]
    exact ⟨_, rfl, rfl⟩

/-- Witness for C3: bumping `pricerW` moves the model state from 0 to 1;
restoring brings it back to 0, and the price is unchanged. -/
theorem bump_restore_restores_price_witness :
    ∃ p2, MonteCarloPricer.restore
        { pricerW with model := { modelW with state := 1 } } 1 =
        Except.ok p2 ∧
      p2.price = pricerW.price :=
  bump_restore_restores_price pricerW
    { pricerW with model := { modelW with state := 1 } } () 0 1 true
    rfl rfl

/-- C6: `bump` delegates directly to the model with the same arguments
and returns the model's result unchanged: a model error is returned
as-is, and a model success returns the model's affected flag, the pricer
carrying the model's new state, and the model's updated saveable.  When
the bump did not affect the model's state (the model's contract for an
unreferenced observable: it returns false and performs no mutation), the
pricer is left unchanged. -/
theorem bump_delegates_to_model
    (p : MonteCarloPricer D F X T B C S M P) (b : B) (save : S) :
    (∀ e, p.model.bump b p.model.state save = Except.error e →
      p.bump b save = Except.error e) ∧
    (∀ (affected : Bool) (m : M) (save2 : S),
      p.model.bump b p.model.state save = Except.ok (affected, m, save2) →
      p.bump b save = Except.ok (affected,
        { p with model := { p.model with state := m } }, save2) ∧
      (m = p.model.state →
        ({ p with model := { p.model with state := m } } :
          MonteCarloPricer D F X T B C S M P) = p)) := by
  constructor
  · intro e he
    unfold MonteCarloPricer.bump
    rw [he]
  · intro affected m save2 hok
    constructor
    · unfold MonteCarloPricer.bump
      rw [hok]
    · intro hm
      subst hm
      rfl

/-- Witness for C6: on `pricerW`, the model bump moves state 0 to 1 and
the saveable 0 to 1, and the pricer's `bump` returns exactly that
result. -/
theorem bump_delegates_to_model_witness :
    MonteCarloPricer.bump pricerW () 0 = Except.ok (true,
      { pricerW with model := { modelW with state := 1 } }, 1) :=
  ((bump_delegates_to_model pricerW () 0).2 true 1 1 rfl).1

/-- C9: `bump_time` forwards the valuation-date bump to both the
weighted instrument list and the model, via the time bump's `apply` on
the pair: a successful `apply` yields the pricer carrying exactly the
updated instrument list and the updated model state, an `apply` error is
propagated; no saveable/undo snapshot is taken (the operation's type
offers none). -/
theorem bump_time_forwards_to_instruments_and_model
    (p : MonteCarloPricer D F X T B C S M P) (tb : BumpTime D F X T M) :
    (∀ instrs m,
      tb.apply p.instruments p.model.state = Except.ok (instrs, m) →
      p.bump_time tb = Except.ok { instruments := instrs,
                                   model := { p.model with state := m } }) ∧
    (∀ e, tb.apply p.instruments p.model.state = Except.error e →
      p.bump_time tb = Except.error e) := by
  constructor
  · intro instrs m h
    unfold MonteCarloPricer.bump_time
    rw [h]
  · intro e h
    unfold MonteCarloPricer.bump_time
    rw [h]

/-- A concrete time bump: prepends a leg and advances the model state to
5. -/
def tbW : BumpTime Nat Unit Unit Nat Nat :=
  { apply := fun l m => .ok ((3, instrB) :: l, m + 5) }

/-- Witness for C9 on `pricerW` and the concrete time bump `tbW`. -/
theorem bump_time_forwards_to_instruments_and_model_witness :
    MonteCarloPricer.bump_time pricerW tbW =
      Except.ok { instruments := (3, instrB) :: pricerW.instruments,
                  model := { modelW with state := 5 } } :=
  (bump_time_forwards_to_instruments_and_model pricerW tbW).1
    ((3, instrB) :: pricerW.instruments) 5 rfl

end BumpClaims

end QuantMath
